import Mathlib

/-!
# FinnTrack — verification of the live race-state actor and the replay engines

Shallow embedding of the FinnTrack Cloudflare worker sources:

* `FinnTrack.DO`  — the Durable Object in `src/raceState.ts`
  (roster + latest-telemetry cache, `/join`, `/update`, `boatsView`,
  `boatsViewArray`).
* `FinnTrack.W1`  — the `/replay` handler of the worker variant that
  forward-fills the last seen point (`handleReplay`, clamps hz to [0.1,10],
  `stepMs = max 50 (round (1000/hz))`).
* `FinnTrack.W3`  — the worker variant with the smoothed `/replay`
  (interpolation; clamps hz to [1,10], `stepMs = floor (1000/hz)`), its
  `/track` validation, and its Durable Object `prune`/`snapshot`.
* `FinnTrack.W4`  — the worker variant whose `handleReplay` samples the
  latest known point per boat (clamps hz to [0.1,10],
  `stepMs = round (1000/hz)`).

JavaScript numbers are modelled as `ℚ`; a JS value that may be `undefined`
or non-finite is modelled as `Option ℚ` (with `none` for the
missing/non-finite case, the result of `safeNum`/`toNumber`).  JS `Map`s
are modelled as association lists with the JS insertion-order semantics:
`mapSet` replaces in place or appends, `mapGet` finds the first match.
-/

set_option maxRecDepth 16000

namespace FinnTrack

/-- JS `Map.prototype.get`: first binding of the key, if any. -/
def mapGet {α : Type} (m : List (String × α)) (k : String) : Option α :=
  match m with
  | [] => none
  | (k', v') :: rest => if k' = k then some v' else mapGet rest k

/-- JS `Map.prototype.set`: replace the binding in place if the key is
present, else append the new binding. -/
def mapSet {α : Type} (m : List (String × α)) (k : String) (v : α) :
    List (String × α) :=
  match m with
  | [] => [(k, v)]
  | (k', v') :: rest =>
      if k' = k then (k, v) :: rest else (k', v') :: mapSet rest k v

/-- `clamp(n, lo, hi)` from the worker utils: `Math.max(lo, Math.min(hi, n))`. -/
def clamp (n lo hi : ℚ) : ℚ := max lo (min hi n)

namespace W1

/-- `handleReplay` hz clamping:
`Math.max(0.1, Math.min(10, toNumber(hz) ?? 2))`. -/
def hzClamped (x : ℚ) : ℚ := max (1/10) (min 10 x)

/-- `handleReplay` step: `Math.max(50, Math.round(1000 / hz))`. -/
def stepMs (x : ℚ) : ℤ := max 50 (round (1000 / hzClamped x))

end W1

namespace W4

/-- `handleReplay`: `const safeHz = clamp(hz, 0.1, 10)`. -/
def safeHz (x : ℚ) : ℚ := clamp x (1/10) 10

/-- `handleReplay`: `const stepMs = Math.round(1000 / safeHz)`. -/
def stepMs (x : ℚ) : ℤ := round (1000 / safeHz x)

end W4

namespace W3

/-- `/replay` handler: `const hz = clamp(isFiniteNumber(hzRaw) ? hzRaw : 4, 1, 10)`. -/
def hzClamped (x : ℚ) : ℚ := clamp x 1 10

/-- `/replay` handler: `const stepMs = Math.floor(1000 / hz)`. -/
def stepMs (x : ℚ) : ℤ := ⌊1000 / hzClamped x⌋

/-- The `/track` handler's validation (after trimming and `Number(...)`
coercion; `none` for a non-finite `lat`/`lon`): requires non-empty
`raceId` and `boatId`, finite `lat`/`lon`, and `|lat| ≤ 90`, `|lon| ≤ 180`.
Returns the error message, or `none` when the point is accepted. -/
def trackValidate (raceId boatId : String) (lat lon : Option ℚ) :
    Option String :=
  if raceId = "" then some "raceId is required"
  else if boatId = "" then some "boatId is required"
  else
    match lat, lon with
    | some la, some lo =>
        if 90 < |la| ∨ 180 < |lo| then some "lat/lon out of range" else none
    | _, _ => some "lat/lon must be numbers"

/-- `TrackPoint` of the worker (one `track_points` row). -/
structure TrackPoint where
  raceId : String
  boatId : String
  t : ℚ
  lat : ℚ
  lon : ℚ
  sog : Option ℚ
  cog : Option ℚ
  name : Option String
deriving DecidableEq

instance : Inhabited TrackPoint := ⟨⟨"", "", 0, 0, 0, none, none, none⟩⟩

/-- `LiveBoat` of the worker (a replay-frame entry, and the Durable
Object's per-boat state). -/
structure LiveBoat where
  boatId : String
  name : Option String
  lat : ℚ
  lon : ℚ
  sog : Option ℚ
  cog : Option ℚ
  t : ℚ
deriving DecidableEq

/-- One replay frame: `{ t, boats }`. -/
structure Frame where
  t : ℚ
  boats : List LiveBoat
deriving DecidableEq

/-- The `ORDER BY boatId ASC, t ASC` order of the `/replay` query. -/
def rowLe (a b : TrackPoint) : Prop :=
  a.boatId < b.boatId ∨ (a.boatId = b.boatId ∧ a.t ≤ b.t)

instance : DecidableRel rowLe := fun a b =>
  decidable_of_iff (a.boatId < b.boatId ∨ (a.boatId = b.boatId ∧ a.t ≤ b.t))
    Iff.rfl

instance : IsTotal TrackPoint rowLe :=
  ⟨fun a b => by
    unfold rowLe
    rcases lt_trichotomy a.boatId b.boatId with h | h | h
    · exact Or.inl (Or.inl h)
    · rcases le_total a.t b.t with ht | ht
      · exact Or.inl (Or.inr ⟨h, ht⟩)
      · exact Or.inr (Or.inr ⟨h.symm, ht⟩)
    · exact Or.inr (Or.inl h)⟩

instance : IsTrans TrackPoint rowLe :=
  ⟨fun a b c hab hbc => by
    unfold rowLe at *
    rcases hab with h | ⟨he, ht⟩
    · rcases hbc with h' | ⟨he', _⟩
      · exact Or.inl (h.trans h')
      · exact Or.inl (he' ▸ h)
    · rcases hbc with h' | ⟨he', ht'⟩
      · exact Or.inl (he ▸ h')
      · exact Or.inr ⟨he.trans he', ht.trans ht'⟩⟩

/-- The strict `(boatId, t)` order (used to show that the sort result is
unique when no two rows share a `(boatId, t)` key). -/
def rowLt (a b : TrackPoint) : Prop :=
  a.boatId < b.boatId ∨ (a.boatId = b.boatId ∧ a.t < b.t)

instance : IsAntisymm TrackPoint rowLt :=
  ⟨fun a b hab hba => by
    rcases hab with h | ⟨he, ht⟩
    · rcases hba with h' | ⟨he', _⟩
      · exact absurd (h.trans h') (lt_irrefl _)
      · exact absurd (he' ▸ h) (lt_irrefl _)
    · rcases hba with h' | ⟨_, ht'⟩
      · exact absurd (he ▸ h') (lt_irrefl _)
      · exact absurd (ht.trans ht') (lt_irrefl _)⟩

/-- The `/replay` D1 query: filter the track log to the requested race and
window, then sort by `(boatId, t)`. -/
def selectRows (log : List TrackPoint) (raceId : String) (tFrom tTo : ℚ) :
    List TrackPoint :=
  List.insertionSort rowLe
    (log.filter fun p => decide (p.raceId = raceId ∧ tFrom ≤ p.t ∧ p.t ≤ tTo))

/-- One step of the `byBoat` grouping: append the point to its boat's
list, or append a new singleton group (JS `Map` insertion order). -/
def addRow (m : List (String × List TrackPoint)) (p : TrackPoint) :
    List (String × List TrackPoint) :=
  match m with
  | [] => [(p.boatId, [p])]
  | (k, ps) :: rest =>
      if k = p.boatId then (k, ps ++ [p]) :: rest else (k, ps) :: addRow rest p

/-- `byBoat`: group the (sorted) rows per boat, in first-appearance order. -/
def byBoat (rows : List TrackPoint) : List (String × List TrackPoint) :=
  rows.foldl addRow []

/-- The frame times `from, from+stepMs, ... ≤ to` of the replay loops. -/
def frameTimes (tFrom tTo step : ℚ) : List ℚ :=
  if step ≤ 0 then []
  else (List.range (⌊(tTo - tFrom) / step⌋ + 1).toNat).map
    fun i : ℕ => tFrom + (i : ℚ) * step

/-- The body of the per-boat cursor advance, with an explicit iteration
bound (the loop advances `i` by one each round and stops once
`i + 1 < pts.length` fails, so any bound `≥ pts.length` is exact). -/
def advanceAux (pts : List TrackPoint) (t : ℚ) : Nat → Nat → Nat
  | 0, i => i
  | fuel + 1, i =>
      if h : i + 1 < pts.length then
        if (pts.get ⟨i + 1, h⟩).t < t then advanceAux pts t fuel (i + 1) else i
      else i

/-- The per-boat cursor advance:
`while (i + 1 < pts.length && pts[i + 1].t < t) i++`. -/
def advanceIdx (pts : List TrackPoint) (t : ℚ) (i : Nat) : Nat :=
  advanceAux pts t pts.length i

/-- `lerp(a, b, x) = a + (b - a) * x`. -/
def lerp (a b x : ℚ) : ℚ := a + (b - a) * x

/-- `interp(p0, p1, t)`: time-fraction linear interpolation, with the
fraction clamped to [0, 1], of lat/lon and (when both ends are finite)
sog/cog. -/
def interp (p0 p1 : TrackPoint) (t : ℚ) : LiveBoat :=
  let span := p1.t - p0.t
  let alpha := if span ≤ 0 then 0 else (t - p0.t) / span
  let x := clamp alpha 0 1
  { boatId := p0.boatId, name := p0.name <|> p1.name,
    lat := lerp p0.lat p1.lat x, lon := lerp p0.lon p1.lon x,
    sog := match p0.sog, p1.sog with
      | some a, some b => some (lerp a b x)
      | a, b => a <|> b,
    cog := match p0.cog, p1.cog with
      | some a, some b => some (lerp a b x)
      | a, b => a <|> b,
    t := t }

/-- The frame value of one boat at time `t`, after the cursor advance:
first point when `t` precedes all data, last point when `t` follows all
data, interpolation between `pts[i]` and `pts[i+1]` otherwise. -/
def sampleBoat (boatId : String) (pts : List TrackPoint) (i : Nat) (t : ℚ) :
    LiveBoat :=
  let first := pts.headD default
  let last := pts.getLastD default
  if t ≤ first.t then
    { boatId := boatId, name := first.name, lat := first.lat,
      lon := first.lon, sog := first.sog, cog := first.cog, t := t }
  else if last.t ≤ t then
    { boatId := boatId, name := last.name, lat := last.lat,
      lon := last.lon, sog := last.sog, cog := last.cog, t := t }
  else interp (pts.getD i default) (pts.getD (i + 1) default) t

/-- One frame of the `/replay` loop: advance every boat's cursor, then
sample it; boats with no points contribute nothing. -/
def frameStep (groups : List (String × List TrackPoint)) (idx : List Nat)
    (t : ℚ) : List Nat × List LiveBoat :=
  match groups, idx with
  | [], _ => ([], [])
  | _ :: _, [] => ([], [])
  | (bid, pts) :: gs, i :: is =>
      let rest := frameStep gs is t
      if pts.isEmpty then (i :: rest.1, rest.2)
      else
        let i' := advanceIdx pts t i
        (i' :: rest.1, sampleBoat bid pts i' t :: rest.2)

/-- The `/replay` frame loop over the frame times, threading the per-boat
cursors. -/
def goFrames (groups : List (String × List TrackPoint)) (idx : List Nat) :
    List ℚ → List Frame
  | [] => []
  | t :: ts =>
      let res := frameStep groups idx t
      ⟨t, res.2⟩ :: goFrames groups res.1 ts

/-- The full `/replay` frame construction of the smoothed handler. -/
def replayFrames (log : List TrackPoint) (raceId : String)
    (tFrom tTo hzRaw : ℚ) : List Frame :=
  let rows := selectRows log raceId tFrom tTo
  let groups := byBoat rows
  goFrames groups (groups.map fun _ => 0)
    (frameTimes tFrom tTo ((stepMs hzRaw : ℤ) : ℚ))

/-- `ACTIVE_MS = 120_000` of the worker's Durable Object. -/
def ACTIVE_MS : ℚ := 120000

/-- `prune()` of the worker's Durable Object: delete every boat whose last
point is older than `ACTIVE_MS`. -/
def prune (boats : List (String × LiveBoat)) (now : ℚ) :
    List (String × LiveBoat) :=
  boats.filter fun kv => decide (now - kv.2.t ≤ ACTIVE_MS)

/-- The `boatId` order of `snapshot()`'s sort. -/
def boatIdLe (a b : LiveBoat) : Prop := a.boatId ≤ b.boatId

instance : DecidableRel boatIdLe := fun a b =>
  decidable_of_iff (a.boatId ≤ b.boatId) Iff.rfl

instance : IsTotal LiveBoat boatIdLe :=
  ⟨fun a b => le_total a.boatId b.boatId⟩

instance : IsTrans LiveBoat boatIdLe :=
  ⟨fun _ _ _ hab hbc => le_trans hab hbc⟩

/-- `snapshot()` of the worker's Durable Object: prune, then the remaining
boats sorted by `boatId`. -/
def snapshot (boats : List (String × LiveBoat)) (now : ℚ) : List LiveBoat :=
  List.insertionSort boatIdLe ((prune boats now).map (·.2))

/-- A concrete Durable Object boat whose last point is at `t = 0`. -/
def exampleStaleBoat : LiveBoat :=
  { boatId := "B1", name := none, lat := 1, lon := 2, sog := none,
    cog := none, t := 0 }

/-- The spec's concrete replay scenario B: two points for `B1` at
`(t=0, lat=0, lon=0)` and `(t=4000, lat=4, lon=4)`. -/
def scenarioPts : List TrackPoint :=
  [⟨"R1", "B1", 0, 0, 0, none, none, none⟩,
   ⟨"R1", "B1", 4000, 4, 4, none, none, none⟩]

/-- The scenario-B points in the opposite storage order. -/
def scenarioPtsRev : List TrackPoint :=
  [⟨"R1", "B1", 4000, 4, 4, none, none, none⟩,
   ⟨"R1", "B1", 0, 0, 0, none, none, none⟩]

/-- A single point for `B1` at `t = 5000`, inside the window but after its
start. -/
def latePt : List TrackPoint :=
  [⟨"R1", "B1", 5000, 7, 8, none, none, none⟩]

end W3

namespace W4

/-- The `ORDER BY t ASC` order of this handler's `/replay` query. -/
def rowLeT (a b : W3.TrackPoint) : Prop := a.t ≤ b.t

instance : DecidableRel rowLeT := fun a b =>
  decidable_of_iff (a.t ≤ b.t) Iff.rfl

instance : IsTotal W3.TrackPoint rowLeT :=
  ⟨fun a b => le_total a.t b.t⟩

instance : IsTrans W3.TrackPoint rowLeT :=
  ⟨fun _ _ _ hab hbc => le_trans hab hbc⟩

/-- This handler's D1 query: filter the track log to the requested race and
window, then sort by `t` ascending. -/
def selectRows (log : List W3.TrackPoint) (raceId : String) (tFrom tTo : ℚ) :
    List W3.TrackPoint :=
  List.insertionSort rowLeT
    (log.filter fun p => decide (p.raceId = raceId ∧ tFrom ≤ p.t ∧ p.t ≤ tTo))

/-- The frame entry built from a stored point (the "latest known point ≤
frame time" sampling copies the point's own values, including its `t`). -/
def toLive (p : W3.TrackPoint) : W3.LiveBoat :=
  { boatId := p.boatId, name := p.name, lat := p.lat, lon := p.lon,
    sog := p.sog, cog := p.cog, t := p.t }

/-- The cursor loop of one frame:
`while (cursor < points.length && points[cursor].t <= t) boatsLatest.set(...)`. -/
def consume (rows : List W3.TrackPoint)
    (m : List (String × W3.TrackPoint)) (t : ℚ) :
    List W3.TrackPoint × List (String × W3.TrackPoint) :=
  match rows with
  | [] => ([], m)
  | r :: rest =>
      if r.t ≤ t then consume rest (mapSet m r.boatId r) t else (r :: rest, m)

/-- The frame loop: consume the rows up to each frame time and emit the
accumulated latest-point map as that frame's boats. -/
def goFrames (rows : List W3.TrackPoint)
    (m : List (String × W3.TrackPoint)) : List ℚ → List W3.Frame
  | [] => []
  | t :: ts =>
      ⟨t, (consume rows m t).2.map fun kv => toLive kv.2⟩ ::
        goFrames (consume rows m t).1 (consume rows m t).2 ts

/-- `maxWindowMs = 6 * 60 * 60 * 1000`; the window is clipped, not
rejected. -/
def effectiveTo (tFrom tTo : ℚ) : ℚ :=
  if 21600000 < tTo - tFrom then tFrom + 21600000 else tTo

/-- The full frame construction of this `/replay` handler. -/
def replayFrames (log : List W3.TrackPoint) (raceId : String)
    (tFrom tTo hz : ℚ) : List W3.Frame :=
  let eTo := effectiveTo tFrom tTo
  goFrames (selectRows log raceId tFrom eTo) []
    (W3.frameTimes tFrom eTo ((stepMs hz : ℤ) : ℚ))

end W4

/-- Modelled from the spec (for comparison with the source): the replay
contract's step formula, "`hz` clamped to [0.1, 10];
`stepMs = round(1000 / hz)`, floor 50ms". -/
def specStepMs (x : ℚ) : ℤ := max 50 (round (1000 / (max (1/10) (min 10 x))))

namespace DO

/-- `BoatRosterEntry` from `src/raceState.ts`. -/
structure BoatRosterEntry where
  boatId : String
  boatName : String
  nation : Option String
  joinedAt : ℚ
  lastSeen : Option ℚ
deriving DecidableEq

/-- `Telemetry` from `src/raceState.ts`. -/
structure Telemetry where
  boatId : String
  lat : ℚ
  lon : ℚ
  t : ℚ
  sog : Option ℚ
  cog : Option ℚ
  heading : Option ℚ
  heel : Option ℚ
deriving DecidableEq

/-- `BoatView` from `src/raceState.ts` (the view sent to the frontend). -/
structure BoatView where
  boatId : String
  boatName : String
  nation : Option String
  joinedAt : ℚ
  live : Bool
  lastSeen : Option ℚ
  lat : Option ℚ
  lng : Option ℚ
  speed : Option ℚ
  heading : Option ℚ
  timestamp : Option ℚ
deriving DecidableEq

/-- The Durable Object's in-memory state: `roster` and `latest` maps. -/
structure RaceSt where
  roster : List (String × BoatRosterEntry)
  latest : List (String × Telemetry)
deriving DecidableEq

/-- The request body of `/join` and `/update`, after JS coercions: a string
field that is absent coerces to `""`; a numeric field is `none` when
missing or not a finite number (the result of `safeNum`). -/
structure UBody where
  raceId : String
  boatId : String
  boatName : String
  nation : Option String
  lat : Option ℚ
  lon : Option ℚ
  t : Option ℚ
  sog : Option ℚ
  speed : Option ℚ
  cog : Option ℚ
  course : Option ℚ
  heading : Option ℚ
  heel : Option ℚ
deriving DecidableEq

/-- `LIVE_MS = 120_000`. -/
def LIVE_MS : ℚ := 120000

/-- `mustHaveTelemetryFields` from `src/raceState.ts`: rejects an empty
`boatId` and a missing/non-finite `lat` or `lon`; `none` means the check
passed. -/
def mustHaveTelemetryFields (b : UBody) : Option String :=
  if b.boatId = "" then some "Missing boatId"
  else if b.lat = none then some "Missing lat"
  else if b.lon = none then some "Missing lon"
  else none

/-- The `/join` handler (validation and mutation; the races-index side
effect and the broadcast are outside the modelled state).  Returns the new
state and the reported `boatsCount`. -/
def joinOp (st : RaceSt) (b : UBody) (now : ℚ) :
    Except String (RaceSt × Nat) :=
  let boatName := if b.boatName = "" then b.boatId else b.boatName
  if b.raceId = "" then .error "Missing raceId"
  else if b.boatId = "" then .error "Missing boatId"
  else
    let existing := mapGet st.roster b.boatId
    let joinedAt := (existing.map (·.joinedAt)).getD now
    let entry : BoatRosterEntry :=
      { boatId := b.boatId, boatName := boatName, nation := b.nation,
        joinedAt := joinedAt, lastSeen := existing.bind (·.lastSeen) }
    let roster' := mapSet st.roster b.boatId entry
    .ok ({ roster := roster', latest := st.latest }, roster'.length)

/-- The `/update` handler: validation, roster auto-create, unconditional
replacement of the cached `Telemetry`, `lastSeen := t`, and the per-boat
`BoatView` used as the payload of the broadcast `update` event (built with
`live: true`). -/
def updateOp (st : RaceSt) (b : UBody) (now : ℚ) :
    Except String (RaceSt × BoatView) :=
  if b.raceId = "" then .error "Missing raceId"
  else match mustHaveTelemetryFields b with
  | some msg => .error msg
  | none =>
    let lat := b.lat.getD 0
    let lon := b.lon.getD 0
    let t := b.t.getD now
    let roster' :=
      if (mapGet st.roster b.boatId).isSome then st.roster
      else
        mapSet st.roster b.boatId
          { boatId := b.boatId,
            boatName := if b.boatName = "" then b.boatId else b.boatName,
            nation := b.nation, joinedAt := now, lastSeen := none }
    let telem : Telemetry :=
      { boatId := b.boatId, lat := lat, lon := lon, t := t,
        sog := b.sog <|> b.speed, cog := b.cog <|> b.course,
        heading := b.heading, heel := b.heel }
    let latest' := mapSet st.latest b.boatId telem
    let entry := (mapGet roster' b.boatId).getD
      { boatId := b.boatId, boatName := b.boatId, nation := none,
        joinedAt := now, lastSeen := none }
    let entry' := { entry with lastSeen := some t }
    let roster'' := mapSet roster' b.boatId entry'
    let view : BoatView :=
      { boatId := b.boatId, boatName := entry.boatName,
        nation := entry.nation, joinedAt := entry.joinedAt,
        live := true, lastSeen := some t,
        lat := some telem.lat, lng := some telem.lon, speed := telem.sog,
        heading := telem.heading <|> telem.cog,
        timestamp := some telem.t }
    .ok ({ roster := roster'', latest := latest' }, view)

/-- The state after an `/update` request: unchanged when the request is
rejected. -/
def runUpdate (st : RaceSt) (b : UBody) (now : ℚ) : RaceSt :=
  match updateOp st b now with
  | .ok (st', _) => st'
  | .error _ => st

/-- The state after a `/join` request: unchanged when the request is
rejected. -/
def runJoin (st : RaceSt) (b : UBody) (now : ℚ) : RaceSt :=
  match joinOp st b now with
  | .ok (st', _) => st'
  | .error _ => st

/-- The per-entry body of `boatsView`: merge the roster entry with the
cached telemetry; `live` is computed from the effective `lastSeen`
(`entry.lastSeen ?? telem?.t`), with JS truthiness (`0` is falsy). -/
def viewOf (latest : List (String × Telemetry)) (now : ℚ) (boatId : String)
    (entry : BoatRosterEntry) : BoatView :=
  let telem := mapGet latest boatId
  let lastSeen := entry.lastSeen <|> telem.map (·.t)
  let live :=
    match lastSeen with
    | some v => if v = 0 then false else decide (now - v ≤ LIVE_MS)
    | none => false
  { boatId := boatId, boatName := entry.boatName, nation := entry.nation,
    joinedAt := entry.joinedAt, live := live, lastSeen := lastSeen,
    lat := telem.map (·.lat), lng := telem.map (·.lon),
    speed := telem.bind (·.sog),
    heading := (telem.bind (·.heading)) <|> (telem.bind (·.cog)),
    timestamp := telem.map (·.t) }

/-- `boatsView` from `src/raceState.ts`: one `BoatView` per roster entry,
keyed by `boatId`, in roster order. -/
def boatsView (st : RaceSt) (now : ℚ) : List (String × BoatView) :=
  st.roster.map fun kv => (kv.1, viewOf st.latest now kv.1 kv.2)

/-- The comparator order of `boatsViewArray`'s sort: live boats first,
then alphabetical by `boatName`. -/
def viewLe (a b : BoatView) : Prop :=
  (a.live = true ∧ b.live = false) ∨ (a.live = b.live ∧ a.boatName ≤ b.boatName)

instance : DecidableRel viewLe := fun a b =>
  decidable_of_iff
    ((a.live = true ∧ b.live = false) ∨ (a.live = b.live ∧ a.boatName ≤ b.boatName))
    Iff.rfl

instance : IsTotal BoatView viewLe :=
  ⟨fun a b => by
    unfold viewLe
    rcases ha : a.live <;> rcases hb : b.live
    · rcases le_total a.boatName b.boatName with h | h
      · exact Or.inl (Or.inr ⟨rfl, h⟩)
      · exact Or.inr (Or.inr ⟨rfl, h⟩)
    · exact Or.inr (Or.inl ⟨rfl, rfl⟩)
    · exact Or.inl (Or.inl ⟨rfl, rfl⟩)
    · rcases le_total a.boatName b.boatName with h | h
      · exact Or.inl (Or.inr ⟨rfl, h⟩)
      · exact Or.inr (Or.inr ⟨rfl, h⟩)⟩

instance : IsTrans BoatView viewLe :=
  ⟨fun a b c hab hbc => by
    unfold viewLe at *
    rcases hab with ⟨ha, hb⟩ | ⟨hab, hn⟩
    · rcases hbc with ⟨hb', _⟩ | ⟨hbc, _⟩
      · rw [hb] at hb'; cases hb'
      · exact Or.inl ⟨ha, hbc ▸ hb⟩
    · rcases hbc with ⟨hb', hc⟩ | ⟨hbc, hn'⟩
      · exact Or.inl ⟨hab ▸ hb', hc⟩
      · exact Or.inr ⟨hab.trans hbc, hn.trans hn'⟩⟩

/-- `boatsViewArray`: the values of `boatsView`, sorted live-first then by
`boatName` (`Array.prototype.sort` with the two-branch comparator). -/
def boatsViewArray (st : RaceSt) (now : ℚ) : List BoatView :=
  List.insertionSort viewLe ((boatsView st now).map (·.2))

/-- A mutating request on the race channel. -/
inductive Op where
  | join (b : UBody) (now : ℚ)
  | update (b : UBody) (now : ℚ)

/-- Apply one request (a rejected request leaves the state unchanged). -/
def stepOp (st : RaceSt) : Op → RaceSt
  | .join b now => runJoin st b now
  | .update b now => runUpdate st b now

/-- Apply a sequence of `/join` and `/update` requests. -/
def runOps (st : RaceSt) (ops : List Op) : RaceSt := ops.foldl stepOp st

/-- Roster membership is a superset of telemetry membership. -/
def telemetrySubsetRoster (st : RaceSt) : Prop :=
  ∀ kv ∈ st.latest, (mapGet st.roster kv.1).isSome

/-- A concrete state used by witnesses: one rostered boat `B1`
(joined at 42) and one cached sample for `B2`. -/
def exampleState : RaceSt :=
  { roster := [("B1", { boatId := "B1", boatName := "Old", nation := none,
                        joinedAt := 42, lastSeen := none })],
    latest := [("B2", { boatId := "B2", lat := 1, lon := 2, t := 3,
                        sog := none, cog := none, heading := none,
                        heel := none })] }

/-- A concrete re-join request for `B1` with a new display name. -/
def exampleJoinBody : UBody :=
  { raceId := "R1", boatId := "B1", boatName := "New", nation := none,
    lat := none, lon := none, t := none, sog := none, speed := none,
    cog := none, course := none, heading := none, heel := none }

/-- A concrete roster entry for boat `B2` with no `lastSeen`. -/
def exampleEntryB2 : BoatRosterEntry :=
  { boatId := "B2", boatName := "Two", nation := none, joinedAt := 0,
    lastSeen := none }

/-- A concrete telemetry update for the unrostered boat `B9`. -/
def exampleUpdateBody : UBody :=
  { raceId := "R1", boatId := "B9", boatName := "", nation := none,
    lat := some 1, lon := some 2, t := some 3, sog := none, speed := none,
    cog := none, course := none, heading := none, heel := none }

end DO

lemma mapGet_mapSet_self {α : Type} (m : List (String × α)) (k : String) (v : α) :
    mapGet (mapSet m k v) k = some v := by
  induction m with
  | nil => simp [mapGet, mapSet]
  | cons kv rest ih =>
    by_cases h : kv.1 = k
    · simp [mapSet, mapGet, h]
    · simp [mapSet, mapGet, h, ih]

lemma mapGet_mapSet_ne {α : Type} (m : List (String × α)) (k k' : String) (v : α)
    (h : k' ≠ k) : mapGet (mapSet m k v) k' = mapGet m k' := by
  have hkk : ¬ k = k' := fun h' => h h'.symm
  induction m with
  | nil => simp [mapGet, mapSet, hkk]
  | cons kv rest ih =>
    by_cases hk : kv.1 = k
    · rw [mapSet, if_pos hk, mapGet, if_neg hkk, mapGet, if_neg (hk ▸ hkk)]
    · rw [mapSet, if_neg hk, mapGet, mapGet]
      by_cases hk' : kv.1 = k'
      · rw [if_pos hk', if_pos hk']
      · rw [if_neg hk', if_neg hk', ih]

lemma mem_mapSet {α : Type} {m : List (String × α)} {k : String} {v : α}
    {kv : String × α} (h : kv ∈ mapSet m k v) : kv = (k, v) ∨ kv ∈ m := by
  induction m with
  | nil => simpa [mapSet] using h
  | cons kv' rest ih =>
    by_cases hk : kv'.1 = k
    · rw [mapSet] at h
      simp only [hk, if_pos] at h
      rcases List.mem_cons.mp h with h | h
      · exact Or.inl h
      · exact Or.inr (List.mem_cons_of_mem _ h)
    · rw [mapSet] at h
      simp only [hk, if_neg, not_false_iff] at h
      rcases List.mem_cons.mp h with h | h
      · exact Or.inr (h ▸ List.mem_cons_self _ _)
      · rcases ih h with h | h
        · exact Or.inl h
        · exact Or.inr (List.mem_cons_of_mem _ h)

lemma mapGet_mem {α : Type} {m : List (String × α)} {k : String} {v : α}
    (h : mapGet m k = some v) : (k, v) ∈ m := by
  induction m with
  | nil => simp [mapGet] at h
  | cons kv rest ih =>
    rw [mapGet] at h
    by_cases hk : kv.1 = k
    · rw [if_pos hk] at h
      cases h
      exact List.mem_cons.mpr (Or.inl (by rw [← hk]))
    · rw [if_neg hk] at h
      exact List.mem_cons_of_mem _ (ih h)

lemma mapGet_map_snd {α β : Type} (m : List (String × α)) (f : String → α → β)
    (k : String) :
    mapGet (m.map fun kv => (kv.1, f kv.1 kv.2)) k = (mapGet m k).map (f k) := by
  induction m with
  | nil => simp [mapGet]
  | cons kv rest ih =>
    by_cases hk : kv.1 = k
    · subst hk
      simp [mapGet]
    · simp [mapGet, hk, ih]

lemma hz_bounds_W1 (x : ℚ) : 1/10 ≤ W1.hzClamped x ∧ W1.hzClamped x ≤ 10 := by
  unfold W1.hzClamped
  constructor
  · exact le_max_left _ _
  · exact max_le (by norm_num) (min_le_left _ _)

lemma hz_bounds_W4 (x : ℚ) : 1/10 ≤ W4.safeHz x ∧ W4.safeHz x ≤ 10 := by
  unfold W4.safeHz clamp
  constructor
  · exact le_max_left _ _
  · exact max_le (by norm_num) (min_le_left _ _)

lemma hz_bounds_W3 (x : ℚ) : 1 ≤ W3.hzClamped x ∧ W3.hzClamped x ≤ 10 := by
  unfold W3.hzClamped clamp
  constructor
  · exact le_max_left _ _
  · exact max_le (by norm_num) (min_le_left _ _)

lemma inv_bounds {hz : ℚ} (hlo : 1/10 ≤ hz) (hhi : hz ≤ 10) :
    100 ≤ 1000 / hz ∧ 1000 / hz ≤ 10000 := by
  have hpos : (0 : ℚ) < hz := lt_of_lt_of_le (by norm_num) hlo
  constructor
  · rw [le_div_iff₀ hpos]
    nlinarith
  · rw [div_le_iff₀ hpos]
    nlinarith

lemma round_bounds {q : ℚ} (hlo : 100 ≤ q) (hhi : q ≤ 10000) :
    100 ≤ round q ∧ round q ≤ 10000 := by
  rw [round_eq]
  constructor
  · have h1 : ((100 : ℤ) : ℚ) ≤ q + 1/2 := by push_cast; linarith
    have := Int.le_floor.mpr h1
    omega
  · have h2 : q + 1/2 < ((10001 : ℤ) : ℚ) := by push_cast; linarith
    have := Int.floor_le_floor (le_of_lt h2)
    rw [Int.floor_intCast] at this
    have h3 := Int.floor_lt.mpr h2
    omega

/-- C1 (corrected): in the smoothed `/replay` handler of `W3`, `hz` is
clamped to [1, 10] — not [0.1, 10] — and `stepMs = floor(1000/hz)` with no
50 ms floor; at `hz = 0.5` it produces `stepMs = 1000` where the spec's
formula gives `2000`. -/
theorem C1_counterexample :
    W3.hzClamped (1/2) = 1 ∧ W3.stepMs (1/2) = 1000 ∧
      specStepMs (1/2) = 2000 ∧ W3.stepMs (1/2) ≠ specStepMs (1/2) := by
  with_unfolding_all decide

/-- C1 (amended): the `W1` handler implements the spec's formula exactly
(`hz` clamped to [0.1, 10], `stepMs = max 50 (round (1000/hz))`); the `W4`
handler clamps to [0.1, 10] with `stepMs = round (1000/hz)` and no explicit
50 ms floor; the `W3` smoothed handler clamps to [1, 10] with
`stepMs = floor (1000/hz)`.  In all three, for every input `hz` the
produced `stepMs` lies between 100 and 10000 ms (for `W3` between 100 and
1000 ms), hence it is never below 50 ms. -/
theorem C1_step_bounds (x : ℚ) :
    W1.stepMs x = specStepMs x ∧
    (100 ≤ W1.stepMs x ∧ W1.stepMs x ≤ 10000) ∧
    (100 ≤ W4.stepMs x ∧ W4.stepMs x ≤ 10000) ∧
    (100 ≤ W3.stepMs x ∧ W3.stepMs x ≤ 1000) := by
  refine ⟨rfl, ?_, ?_, ?_⟩
  · obtain ⟨hlo, hhi⟩ := hz_bounds_W1 x
    obtain ⟨h1, h2⟩ := inv_bounds hlo hhi
    obtain ⟨h3, h4⟩ := round_bounds h1 h2
    unfold W1.stepMs
    omega
  · obtain ⟨hlo, hhi⟩ := hz_bounds_W4 x
    obtain ⟨h1, h2⟩ := inv_bounds hlo hhi
    obtain ⟨h3, h4⟩ := round_bounds h1 h2
    unfold W4.stepMs
    omega
  · obtain ⟨hlo, hhi⟩ := hz_bounds_W3 x
    have hpos : (0 : ℚ) < W3.hzClamped x := lt_of_lt_of_le one_pos hlo
    have h1 : (100 : ℚ) ≤ 1000 / W3.hzClamped x := by
      rw [le_div_iff₀ hpos]; nlinarith
    have h2 : 1000 / W3.hzClamped x ≤ (1000 : ℚ) := by
      rw [div_le_iff₀ hpos]; nlinarith
    unfold W3.stepMs
    constructor
    · have : ((100 : ℤ) : ℚ) ≤ 1000 / W3.hzClamped x := by push_cast; linarith
      exact Int.le_floor.mpr this
    · have : 1000 / W3.hzClamped x ≤ ((1000 : ℤ) : ℚ) := by push_cast; linarith
      calc ⌊1000 / W3.hzClamped x⌋ ≤ ⌊((1000 : ℤ) : ℚ)⌋ := Int.floor_le_floor this
        _ = 1000 := Int.floor_intCast 1000

/-- C2 (counterexample): the `/update` validation accepts `lat = 1000`
(out of range) and the update mutates the telemetry cache, against the
claim that an out-of-range `lat` fails with an invalid-input error and
performs no mutation. -/
theorem C2_counterexample :
    DO.mustHaveTelemetryFields
      { raceId := "R1", boatId := "B1", boatName := "", nation := none,
        lat := some 1000, lon := some 0, t := some 0, sog := none,
        speed := none, cog := none, course := none, heading := none,
        heel := none } = none ∧
    (mapGet (DO.runUpdate { roster := [], latest := [] }
      { raceId := "R1", boatId := "B1", boatName := "", nation := none,
        lat := some 1000, lon := some 0, t := some 0, sog := none,
        speed := none, cog := none, course := none, heading := none,
        heel := none } 0).latest "B1").map (·.lat) = some 1000 := by
  with_unfolding_all decide

/-- C2 (amended): the Durable Object's `/update` validation
(`mustHaveTelemetryFields`) rejects exactly an empty `boatId` or a
missing/non-finite `lat`/`lon` — it checks no range — and a rejected
request performs no mutation; the range check `|lat| ≤ 90 ∧ |lon| ≤ 180`
exists only in the worker's `/track` handler, which also requires
non-empty `raceId` and `boatId`. -/
theorem C2_validation (b : DO.UBody) (st : DO.RaceSt) (now : ℚ)
    (raceId boatId : String) (la lo : ℚ) :
    (DO.mustHaveTelemetryFields b = none ↔
      (b.boatId ≠ "" ∧ b.lat ≠ none ∧ b.lon ≠ none)) ∧
    (∀ msg, DO.mustHaveTelemetryFields b = some msg →
      DO.runUpdate st b now = st) ∧
    (W3.trackValidate raceId boatId (some la) (some lo) = none ↔
      (raceId ≠ "" ∧ boatId ≠ "" ∧ |la| ≤ 90 ∧ |lo| ≤ 180)) := by
  refine ⟨?_, ?_, ?_⟩
  · unfold DO.mustHaveTelemetryFields
    by_cases h1 : b.boatId = "" <;> by_cases h2 : b.lat = none <;>
      by_cases h3 : b.lon = none <;> simp [h1, h2, h3]
  · intro msg hmsg
    unfold DO.runUpdate DO.updateOp
    by_cases hr : b.raceId = ""
    · simp [hr]
    · simp only [hr, if_neg, if_false, hmsg]
  · unfold W3.trackValidate
    by_cases h1 : raceId = ""
    · simp [h1]
    · by_cases h2 : boatId = ""
      · simp [h1, h2]
      · rw [if_neg h1, if_neg h2]
        show (if 90 < |la| ∨ 180 < |lo| then (some "lat/lon out of range" : Option String) else none) = none ↔ _
        by_cases h3 : 90 < |la| ∨ 180 < |lo|
        · rw [if_pos h3]
          constructor
          · intro hc; cases hc
          · rintro ⟨-, -, hla, hlo⟩
            rcases h3 with h | h
            · exact absurd hla (not_le.mpr h)
            · exact absurd hlo (not_le.mpr h)
        · rw [if_neg h3]
          push_neg at h3
          simp [h1, h2, h3.1, h3.2]

/-- Witness for C2 (amended) at a concrete body, state and point. -/
theorem C2_validation_witness :
    (DO.mustHaveTelemetryFields
      { raceId := "R1", boatId := "", boatName := "", nation := none,
        lat := some 1, lon := some 2, t := none, sog := none, speed := none,
        cog := none, course := none, heading := none, heel := none } =
        none ↔
      (("" : String) ≠ "" ∧ (some (1 : ℚ)) ≠ none ∧ (some (2 : ℚ)) ≠ none)) ∧
    (∀ msg, DO.mustHaveTelemetryFields
      { raceId := "R1", boatId := "", boatName := "", nation := none,
        lat := some 1, lon := some 2, t := none, sog := none, speed := none,
        cog := none, course := none, heading := none, heel := none } =
        some msg →
      DO.runUpdate { roster := [], latest := [] }
        { raceId := "R1", boatId := "", boatName := "", nation := none,
          lat := some 1, lon := some 2, t := none, sog := none,
          speed := none, cog := none, course := none, heading := none,
          heel := none } 3 = { roster := [], latest := [] }) ∧
    (W3.trackValidate "R1" "B1" (some 10) (some 20) = none ↔
      (("R1" : String) ≠ "" ∧ ("B1" : String) ≠ "" ∧ |(10 : ℚ)| ≤ 90 ∧
        |(20 : ℚ)| ≤ 180)) :=
  C2_validation _ _ 3 "R1" "B1" 10 20

/-- C4 (confirmed): an accepted `/update` replaces the cached
`Telemetry` for its `boatId` wholesale — the new sample is stored with no
comparison against the previously cached sample's `t`. -/
theorem C4_update_overwrites (st : DO.RaceSt) (b : DO.UBody) (now : ℚ)
    (hr : b.raceId ≠ "") (hv : DO.mustHaveTelemetryFields b = none) :
    mapGet (DO.runUpdate st b now).latest b.boatId =
      some { boatId := b.boatId, lat := b.lat.getD 0, lon := b.lon.getD 0,
             t := b.t.getD now, sog := b.sog <|> b.speed,
             cog := b.cog <|> b.course, heading := b.heading,
             heel := b.heel } := by
  unfold DO.runUpdate DO.updateOp
  simp only [hr, if_neg, if_false, hv]
  exact mapGet_mapSet_self _ _ _

/-- Witness for C4: the cached sample has `t = 999999`; the incoming
update with the older `t = 5` still overwrites it. -/
theorem C4_update_overwrites_witness :
    mapGet (DO.runUpdate
      { roster := [("B1", { boatId := "B1", boatName := "B1", nation := none,
                            joinedAt := 0, lastSeen := some 999999 })],
        latest := [("B1", { boatId := "B1", lat := 50, lon := 60,
                            t := 999999, sog := none, cog := none,
                            heading := none, heel := none })] }
      { raceId := "R1", boatId := "B1", boatName := "", nation := none,
        lat := some 1, lon := some 2, t := some 5, sog := none,
        speed := none, cog := none, course := none, heading := none,
        heel := none } 7).latest "B1" =
      some { boatId := "B1", lat := (some (1 : ℚ)).getD 0,
             lon := (some (2 : ℚ)).getD 0, t := (some (5 : ℚ)).getD 7,
             sog := none <|> none, cog := none <|> none, heading := none,
             heel := none } :=
  C4_update_overwrites _ _ 7 (by decide) (by decide)

/-- C6 (confirmed): an accepted `/join` leaves the telemetry map
untouched, returns the new roster size, and — when a roster entry for the
`boatId` already exists — preserves its original `joinedAt`. -/
theorem C6_join_frame (st : DO.RaceSt) (b : DO.UBody) (now : ℚ)
    (hr : b.raceId ≠ "") (hb : b.boatId ≠ "") :
    ∃ st' n, DO.joinOp st b now = .ok (st', n) ∧
      st'.latest = st.latest ∧
      n = st'.roster.length ∧
      ∀ e, mapGet st.roster b.boatId = some e →
        (mapGet st'.roster b.boatId).map (·.joinedAt) = some e.joinedAt := by
  unfold DO.joinOp
  simp only [hr, hb, if_neg, if_false]
  refine ⟨_, _, rfl, rfl, rfl, ?_⟩
  intro e he
  rw [mapGet_mapSet_self]
  simp [he]

/-- Witness for C6: joining again with a different `boatName` keeps the
original `joinedAt = 42` and the telemetry map. -/
theorem C6_join_frame_witness :
    ∃ (st' : DO.RaceSt) (n : Nat),
      DO.joinOp DO.exampleState DO.exampleJoinBody 100 = .ok (st', n) ∧
      st'.latest = DO.exampleState.latest ∧
      n = st'.roster.length ∧
      ∀ e, mapGet DO.exampleState.roster "B1" = some e →
        (mapGet st'.roster "B1").map (·.joinedAt) = some e.joinedAt :=
  C6_join_frame DO.exampleState DO.exampleJoinBody 100 (by decide) (by decide)

lemma mapGet_isSome_mapSet {α : Type} (m : List (String × α)) (k k' : String)
    (v : α) (h : (mapGet m k').isSome) :
    (mapGet (mapSet m k v) k').isSome := by
  by_cases hk : k' = k
  · subst hk; rw [mapGet_mapSet_self]; rfl
  · rw [mapGet_mapSet_ne _ _ _ _ hk]; exact h

lemma stepOp_preserves (st : DO.RaceSt) (op : DO.Op)
    (h : DO.telemetrySubsetRoster st) :
    DO.telemetrySubsetRoster (DO.stepOp st op) := by
  cases op with
  | join b now =>
    show DO.telemetrySubsetRoster (DO.runJoin st b now)
    unfold DO.runJoin DO.joinOp
    by_cases hr : b.raceId = ""
    · simpa [hr] using h
    · by_cases hb : b.boatId = ""
      · simpa [hr, hb] using h
      · simp only [hr, hb, if_neg, if_false]
        intro kv hkv
        exact mapGet_isSome_mapSet _ _ _ _ (h kv hkv)
  | update b now =>
    show DO.telemetrySubsetRoster (DO.runUpdate st b now)
    unfold DO.runUpdate DO.updateOp
    by_cases hr : b.raceId = ""
    · simpa [hr] using h
    · rcases hv : DO.mustHaveTelemetryFields b with _ | msg
      · simp only [hr, hv, if_neg, if_false]
        intro kv hkv
        rcases mem_mapSet hkv with heq | hmem
        · subst heq
          rw [mapGet_mapSet_self]; rfl
        · apply mapGet_isSome_mapSet
          by_cases hex : (mapGet st.roster b.boatId).isSome
          · simpa [hex] using h kv hmem
          · simp only [hex, if_false, Bool.false_eq_true]
            exact mapGet_isSome_mapSet _ _ _ _ (h kv hmem)
      · simpa [hr, hv] using h

/-- C7 (confirmed): after any sequence of `/join` and `/update` requests,
every `boatId` with a cached `Telemetry` sample has a roster entry
(`/update` auto-creates the roster entry before caching telemetry), so
roster membership stays a superset of telemetry membership. -/
theorem C7_roster_superset (st : DO.RaceSt) (ops : List DO.Op)
    (h : DO.telemetrySubsetRoster st) :
    DO.telemetrySubsetRoster (DO.runOps st ops) := by
  induction ops generalizing st with
  | nil => exact h
  | cons op rest ih => exact ih _ (stepOp_preserves st op h)

/-- Witness for C7: an update for an unrostered boat followed by a join,
starting from the empty state. -/
theorem C7_roster_superset_witness :
    DO.telemetrySubsetRoster (DO.runOps { roster := [], latest := [] }
      [DO.Op.update DO.exampleUpdateBody 10, DO.Op.join DO.exampleJoinBody 20]) :=
  C7_roster_superset { roster := [], latest := [] } _ (by intro kv hkv; cases hkv)

/-- C10 (confirmed): the incremental event broadcast by an accepted
`/update` carries `live: true` unconditionally; when the reported `t` is
more than 120000 ms before `now`, a view computed from the very state the
update produced reports `live = false` for the same boat, so the broadcast
payload disagrees with a simultaneous snapshot. -/
theorem C10_broadcast_live (st : DO.RaceSt) (b : DO.UBody) (now : ℚ)
    (hr : b.raceId ≠ "") (hv : DO.mustHaveTelemetryFields b = none) :
    ∃ (st' : DO.RaceSt) (view : DO.BoatView),
      DO.updateOp st b now = .ok (st', view) ∧
      view.live = true ∧
      (DO.LIVE_MS < now - b.t.getD now →
        (mapGet (DO.boatsView st' now) b.boatId).map (·.live) =
          some false) := by
  unfold DO.updateOp
  simp only [hr, hv, if_neg, if_false]
  refine ⟨_, _, rfl, rfl, ?_⟩
  intro hstale
  unfold DO.boatsView
  rw [mapGet_map_snd, mapGet_mapSet_self]
  unfold DO.viewOf
  simp only [Option.map_some]
  have hne : ¬ (now - b.t.getD now ≤ DO.LIVE_MS) := not_le.mpr hstale
  by_cases ht : b.t.getD now = 0
  · simp [ht]
  · simp [ht, hne]
    linarith [hstale]

/-- Witness for C10: an update reporting `t = 0` processed at
`now = 200000`. -/
theorem C10_broadcast_live_witness :
    ∃ (st' : DO.RaceSt) (view : DO.BoatView),
      DO.updateOp { roster := [], latest := [] }
        { raceId := "R1", boatId := "B1", boatName := "", nation := none,
          lat := some 1, lon := some 2, t := some 0, sog := none,
          speed := none, cog := none, course := none, heading := none,
          heel := none } 200000 = .ok (st', view) ∧
      view.live = true ∧
      (DO.LIVE_MS < 200000 - (some (0 : ℚ)).getD 200000 →
        (mapGet (DO.boatsView st' 200000) "B1").map (·.live) =
          some false) :=
  C10_broadcast_live { roster := [], latest := [] } _ 200000 (by decide)
    (by decide)

/-- C5 (counterexample): in the `W3` worker's Durable Object, a boat whose
last point is 121000 ms old is deleted by `prune` and absent from
`snapshot()` — it does not remain in the view with `live=false`. -/
theorem C5_counterexample :
    W3.snapshot [("B1", W3.exampleStaleBoat)] 121000 = [] := by
  with_unfolding_all decide

/-- C5 (amended): in `src/raceState.ts` every rostered boat appears in
`boatsView` regardless of staleness, keeping the cached `lat`/`lng`; its
`live` flag is true iff the effective `lastSeen` (`entry.lastSeen`, else
the cached sample's `t`) is present, nonzero (JS truthiness), and within
120000 ms of `now`; `boatsViewArray` is sorted live-first then by
`boatName` and is a permutation of the view's values.  In the `W3`
worker's Durable Object, however, `snapshot()` deletes boats older than
120000 ms entirely and sorts the survivors by `boatId`. -/
theorem C5_views (st : DO.RaceSt) (now : ℚ) (kv : String × DO.BoatRosterEntry)
    (latest : List (String × DO.Telemetry)) (bid : String)
    (entry : DO.BoatRosterEntry) (boats : List (String × W3.LiveBoat))
    (b : W3.LiveBoat) :
    (kv ∈ st.roster →
      (kv.1, DO.viewOf st.latest now kv.1 kv.2) ∈ DO.boatsView st now) ∧
    ((DO.viewOf latest now bid entry).live = true ↔
      ∃ v, (entry.lastSeen <|> (mapGet latest bid).map (·.t)) = some v ∧
        v ≠ 0 ∧ now - v ≤ DO.LIVE_MS) ∧
    ((DO.viewOf latest now bid entry).lat = (mapGet latest bid).map (·.lat) ∧
      (DO.viewOf latest now bid entry).lng = (mapGet latest bid).map (·.lon)) ∧
    List.Sorted DO.viewLe (DO.boatsViewArray st now) ∧
    (DO.boatsViewArray st now).Perm ((DO.boatsView st now).map (·.2)) ∧
    (b ∈ W3.snapshot boats now ↔
      (∃ k, (k, b) ∈ boats) ∧ now - b.t ≤ W3.ACTIVE_MS) ∧
    List.Sorted W3.boatIdLe (W3.snapshot boats now) := by
  refine ⟨?_, ?_, ⟨rfl, rfl⟩, ?_, ?_, ?_, ?_⟩
  · intro hkv
    exact List.mem_map.mpr ⟨kv, hkv, rfl⟩
  · unfold DO.viewOf
    rcases hls : entry.lastSeen <|> (mapGet latest bid).map (·.t) with _ | v
    · simp [hls]
    · by_cases hv : v = 0
      · subst hv; simp [hls]
      · simp [hls, hv]
  · exact List.sorted_insertionSort _ _
  · exact List.perm_insertionSort _ _
  · unfold W3.snapshot W3.prune
    rw [(List.perm_insertionSort _ _).mem_iff]
    simp only [List.mem_map, List.mem_filter, decide_eq_true_eq]
    constructor
    · rintro ⟨kv', ⟨hmem, hfresh⟩, hb⟩
      subst hb
      exact ⟨⟨kv'.1, hmem⟩, hfresh⟩
    · rintro ⟨⟨k, hmem⟩, hfresh⟩
      exact ⟨(k, b), ⟨hmem, hfresh⟩, rfl⟩
  · exact List.sorted_insertionSort _ _

/-- Witness for C5 (amended) at a concrete state, time, roster entry and
Durable Object boat map. -/
theorem C5_views_witness :
    (("B2", DO.exampleEntryB2) ∈ DO.exampleState.roster →
      ("B2", DO.viewOf DO.exampleState.latest 121000 "B2"
        DO.exampleEntryB2) ∈ DO.boatsView DO.exampleState 121000) ∧
    ((DO.viewOf DO.exampleState.latest 121000 "B2"
        DO.exampleEntryB2).live = true ↔
      ∃ v, (DO.exampleEntryB2.lastSeen <|>
          (mapGet DO.exampleState.latest "B2").map (·.t)) = some v ∧
        v ≠ 0 ∧ 121000 - v ≤ DO.LIVE_MS) ∧
    ((DO.viewOf DO.exampleState.latest 121000 "B2"
        DO.exampleEntryB2).lat =
        (mapGet DO.exampleState.latest "B2").map (·.lat) ∧
      (DO.viewOf DO.exampleState.latest 121000 "B2"
        DO.exampleEntryB2).lng =
        (mapGet DO.exampleState.latest "B2").map (·.lon)) ∧
    List.Sorted DO.viewLe (DO.boatsViewArray DO.exampleState 121000) ∧
    (DO.boatsViewArray DO.exampleState 121000).Perm
      ((DO.boatsView DO.exampleState 121000).map (·.2)) ∧
    (W3.exampleStaleBoat ∈
        W3.snapshot [("B1", W3.exampleStaleBoat)] 121000 ↔
      (∃ k, (k, W3.exampleStaleBoat) ∈ [("B1", W3.exampleStaleBoat)]) ∧
        121000 - W3.exampleStaleBoat.t ≤ W3.ACTIVE_MS) ∧
    List.Sorted W3.boatIdLe
      (W3.snapshot [("B1", W3.exampleStaleBoat)] 121000) :=
  C5_views DO.exampleState 121000 ("B2", DO.exampleEntryB2)
    DO.exampleState.latest "B2" DO.exampleEntryB2 [("B1", W3.exampleStaleBoat)]
    W3.exampleStaleBoat

/-- C8 (confirmed): replaying the two scenario-B points over
`from=0, to=4000` at `hz=1` yields, in the frame at `t=2000`, boat `B1`
interpolated to the midpoint `lat=2, lon=2`. -/
theorem C8_midpoint_frame :
    (W3.replayFrames W3.scenarioPts "R1" 0 4000 1)[2]? =
      some ⟨2000, [⟨"B1", none, 2, 2, none, none, 2000⟩]⟩ := by
  with_unfolding_all decide

lemma pairwise_rowLt_of_rowLe {rows : List W3.TrackPoint}
    (hs : rows.Pairwise W3.rowLe)
    (hnd : (rows.map fun p => (p.boatId, p.t)).Nodup) :
    rows.Pairwise W3.rowLt := by
  have hne : rows.Pairwise fun a b => (a.boatId, a.t) ≠ (b.boatId, b.t) :=
    List.pairwise_map.mp hnd
  refine (hs.and hne).imp ?_
  rintro a b ⟨hle, hkey⟩
  rcases hle with h | ⟨he, ht⟩
  · exact Or.inl h
  · refine Or.inr ⟨he, lt_of_le_of_ne ht fun ht' => hkey ?_⟩
    rw [he, ht']

lemma insertionSort_canon {l1 l2 : List W3.TrackPoint} (hperm : l1.Perm l2)
    (hnd : (l1.map fun p => (p.boatId, p.t)).Nodup) :
    List.insertionSort W3.rowLe l1 = List.insertionSort W3.rowLe l2 := by
  have hs1 := List.sorted_insertionSort W3.rowLe l1
  have hs2 := List.sorted_insertionSort W3.rowLe l2
  have hp1 := List.perm_insertionSort W3.rowLe l1
  have hp2 := List.perm_insertionSort W3.rowLe l2
  have hnd1 : ((List.insertionSort W3.rowLe l1).map
      fun p => (p.boatId, p.t)).Nodup :=
    ((hp1.map _).nodup_iff).mpr hnd
  have hnd2 : ((List.insertionSort W3.rowLe l2).map
      fun p => (p.boatId, p.t)).Nodup :=
    ((hp2.map _).nodup_iff).mpr (((hperm.map _).nodup_iff).mp hnd)
  exact List.eq_of_perm_of_sorted (hp1.trans (hperm.trans hp2.symm))
    (pairwise_rowLt_of_rowLe hs1 hnd1) (pairwise_rowLt_of_rowLe hs2 hnd2)

lemma filtered_keys_nodup (log : List W3.TrackPoint) (raceId : String)
    (tFrom tTo : ℚ)
    (hnd : (log.map fun p => (p.raceId, p.boatId, p.t)).Nodup) :
    ((log.filter fun p =>
        decide (p.raceId = raceId ∧ tFrom ≤ p.t ∧ p.t ≤ tTo)).map
      fun p => (p.boatId, p.t)).Nodup := by
  have h1 : log.Pairwise fun a b =>
      (a.raceId, a.boatId, a.t) ≠ (b.raceId, b.boatId, b.t) :=
    List.pairwise_map.mp hnd
  have h2 := h1.sublist
    (List.filter_sublist (p := fun p =>
      decide (p.raceId = raceId ∧ tFrom ≤ p.t ∧ p.t ≤ tTo)) log)
  refine List.pairwise_map.mpr (h2.imp_of_mem ?_)
  intro a b ha hb hne heq
  have har : a.raceId = raceId :=
    (of_decide_eq_true (List.mem_filter.mp ha).2).1
  have hbr : b.raceId = raceId :=
    (of_decide_eq_true (List.mem_filter.mp hb).2).1
  apply hne
  have h3 : a.boatId = b.boatId := congrArg Prod.fst heq
  have h4 : a.t = b.t := congrArg Prod.snd heq
  rw [har, hbr, h3, h4]

/-- C9 (confirmed): the smoothed `/replay` frame construction is
deterministic in the Track Log contents — for identical arguments, any two
storage orders of the same set of rows (with the `(raceId, boatId, t)`
primary key unique, as `INSERT OR REPLACE` guarantees) produce identical
frame sequences, because the query's `ORDER BY boatId, t` makes the row
order canonical. -/
theorem C9_replay_deterministic (log1 log2 : List W3.TrackPoint)
    (raceId : String) (tFrom tTo hz : ℚ) (hperm : log1.Perm log2)
    (hnd : (log1.map fun p => (p.raceId, p.boatId, p.t)).Nodup) :
    W3.replayFrames log1 raceId tFrom tTo hz =
      W3.replayFrames log2 raceId tFrom tTo hz := by
  have hsel : W3.selectRows log1 raceId tFrom tTo =
      W3.selectRows log2 raceId tFrom tTo := by
    unfold W3.selectRows
    exact insertionSort_canon (hperm.filter _)
      (filtered_keys_nodup log1 raceId tFrom tTo hnd)
  unfold W3.replayFrames
  rw [hsel]

/-- Witness for C9: the scenario-B points stored in either order replay to
the same frames. -/
theorem C9_replay_deterministic_witness :
    W3.replayFrames W3.scenarioPts "R1" 0 4000 1 =
      W3.replayFrames W3.scenarioPtsRev "R1" 0 4000 1 :=
  C9_replay_deterministic W3.scenarioPts W3.scenarioPtsRev "R1" 0 4000 1
    (List.Perm.swap _ _ _) (by with_unfolding_all decide)

lemma consume_spec (t : ℚ) (rows : List W3.TrackPoint) :
    ∀ m, W4.consume rows m t =
      (rows.dropWhile fun r => decide (r.t ≤ t),
       (rows.takeWhile fun r => decide (r.t ≤ t)).foldl
         (fun acc r => mapSet acc r.boatId r) m) := by
  induction rows with
  | nil => intro m; rfl
  | cons r rest ih =>
    intro m
    by_cases h : r.t ≤ t
    · rw [W4.consume, if_pos h, ih, List.takeWhile_cons_of_pos (by simpa using h),
        List.dropWhile_cons_of_pos (by simpa using h)]
      rfl
    · rw [W4.consume, if_neg h, List.takeWhile_cons_of_neg (by simpa using h),
        List.dropWhile_cons_of_neg (by simpa using h)]
      rfl

lemma foldl_mapSet_mem (rows : List W3.TrackPoint) :
    ∀ (m0 : List (String × W3.TrackPoint)) kv,
      kv ∈ rows.foldl (fun acc r => mapSet acc r.boatId r) m0 →
      kv ∈ m0 ∨ ∃ r ∈ rows, kv = (r.boatId, r) := by
  induction rows with
  | nil => intro m0 kv h; exact Or.inl h
  | cons r rest ih =>
    intro m0 kv h
    rcases ih _ kv h with h' | ⟨r', hr', he⟩
    · rcases mem_mapSet h' with he | hm
      · exact Or.inr ⟨r, List.mem_cons_self _ _, he⟩
      · exact Or.inl hm
    · exact Or.inr ⟨r', List.mem_cons_of_mem _ hr', he⟩

lemma foldl_mapSet_isSome (rows : List W3.TrackPoint) :
    ∀ (m0 : List (String × W3.TrackPoint)) (bId : String),
      (mapGet (rows.foldl (fun acc r => mapSet acc r.boatId r) m0) bId).isSome
        ↔ (mapGet m0 bId).isSome ∨ ∃ r ∈ rows, r.boatId = bId := by
  induction rows with
  | nil => intro m0 bId; simp
  | cons r rest ih =>
    intro m0 bId
    rw [List.foldl_cons, ih]
    by_cases hb : bId = r.boatId
    · subst hb
      rw [mapGet_mapSet_self]
      simp
    · rw [mapGet_mapSet_ne _ _ _ _ hb]
      constructor
      · rintro (h | ⟨r', hr', he⟩)
        · exact Or.inl h
        · exact Or.inr ⟨r', List.mem_cons_of_mem _ hr', he⟩
      · rintro (h | ⟨r', hr', he⟩)
        · exact Or.inl h
        · rcases List.mem_cons.mp hr' with he' | hm
          · exact absurd (he' ▸ he).symm hb
          · exact Or.inr ⟨r', hm, he⟩

lemma dropWhile_gt (t : ℚ) (rows : List W3.TrackPoint)
    (hs : rows.Pairwise fun a b => a.t ≤ b.t) :
    ∀ r ∈ rows.dropWhile fun r => decide (r.t ≤ t), t < r.t := by
  induction rows with
  | nil => intro r hr; cases hr
  | cons x rest ih =>
    rcases List.pairwise_cons.mp hs with ⟨hx, hrest⟩
    by_cases hxt : x.t ≤ t
    · rw [List.dropWhile_cons_of_pos (by simpa using hxt)]
      exact ih hrest
    · rw [List.dropWhile_cons_of_neg (by simpa using hxt)]
      intro r hr
      rcases List.mem_cons.mp hr with he | hm
      · exact he ▸ not_le.mp hxt
      · exact lt_of_lt_of_le (not_le.mp hxt) (hx r hm)

lemma mem_takeWhile_le (t : ℚ) (rows : List W3.TrackPoint) :
    ∀ r ∈ rows.takeWhile fun r => decide (r.t ≤ t), r.t ≤ t := by
  induction rows with
  | nil => intro r hr; cases hr
  | cons x rest ih =>
    by_cases hxt : x.t ≤ t
    · rw [List.takeWhile_cons_of_pos (by simpa using hxt)]
      intro r hr
      rcases List.mem_cons.mp hr with he | hm
      · exact he ▸ hxt
      · exact ih r hm
    · rw [List.takeWhile_cons_of_neg (by simpa using hxt)]
      intro r hr
      cases hr

lemma goFrames_spec (times : List ℚ) :
    ∀ (consumed rem : List W3.TrackPoint)
      (m : List (String × W3.TrackPoint)),
      rem.Pairwise (fun a b => a.t ≤ b.t) →
      times.Pairwise (· ≤ ·) →
      m = consumed.foldl (fun acc r => mapSet acc r.boatId r) [] →
      (∀ t0 ∈ times, ∀ c ∈ consumed, c.t ≤ t0) →
      ∀ fr ∈ W4.goFrames rem m times,
        (∀ bId, (∃ e ∈ fr.boats, e.boatId = bId) ↔
          ∃ r ∈ consumed ++ rem, r.boatId = bId ∧ r.t ≤ fr.t) ∧
        (∀ e ∈ fr.boats, ∃ r ∈ consumed ++ rem,
          r.boatId = e.boatId ∧ r.t ≤ fr.t ∧ e = W4.toLive r) := by
  induction times with
  | nil =>
    intro consumed rem m _ _ _ _ fr hfr
    cases hfr
  | cons t ts ih =>
    intro consumed rem m hsort htimes hm hcons fr hfr
    rw [W4.goFrames, consume_spec] at hfr
    have hm' : (rem.takeWhile fun r => decide (r.t ≤ t)).foldl
        (fun acc r => mapSet acc r.boatId r) m =
        ((consumed ++ rem.takeWhile fun r => decide (r.t ≤ t)).foldl
          (fun acc r => mapSet acc r.boatId r) []) := by
      rw [List.foldl_append, ← hm]
    have hsplit : (consumed ++ rem.takeWhile fun r => decide (r.t ≤ t)) ++
        rem.dropWhile (fun r => decide (r.t ≤ t)) = consumed ++ rem := by
      rw [List.append_assoc, List.takeWhile_append_dropWhile]
    have hcle : ∀ c ∈ consumed ++ rem.takeWhile fun r => decide (r.t ≤ t),
        c.t ≤ t := by
      intro c hc
      rcases List.mem_append.mp hc with h | h
      · exact hcons t (List.mem_cons_self _ _) c h
      · exact mem_takeWhile_le t rem c h
    have hsound : ∀ e ∈ ((rem.takeWhile fun r => decide (r.t ≤ t)).foldl
          (fun acc r => mapSet acc r.boatId r) m).map
          (fun kv => W4.toLive kv.2),
        ∃ r ∈ consumed ++ rem, r.boatId = e.boatId ∧ r.t ≤ t ∧
          e = W4.toLive r := by
      intro e he
      obtain ⟨kv, hkv, hkve⟩ := List.mem_map.mp he
      rw [hm'] at hkv
      rcases foldl_mapSet_mem _ _ kv hkv with h0 | ⟨r, hr, hkvr⟩
      · cases h0
      · subst hkvr
        subst hkve
        exact ⟨r, hsplit ▸ List.mem_append_left _ hr, rfl, hcle r hr, rfl⟩
    have hcomp : ∀ bId,
        (∃ r ∈ consumed ++ rem, r.boatId = bId ∧ r.t ≤ t) →
        ∃ e ∈ ((rem.takeWhile fun r => decide (r.t ≤ t)).foldl
          (fun acc r => mapSet acc r.boatId r) m).map
          (fun kv => W4.toLive kv.2), e.boatId = bId := by
      rintro bId ⟨r, hr, hb, hrt⟩
      rw [← hsplit] at hr
      have hrmem : r ∈ consumed ++ rem.takeWhile fun r => decide (r.t ≤ t) := by
        rcases List.mem_append.mp hr with h | h
        · exact h
        · exact absurd hrt (not_le.mpr (dropWhile_gt t rem hsort r h))
      have hsome : (mapGet ((rem.takeWhile fun r => decide (r.t ≤ t)).foldl
          (fun acc r => mapSet acc r.boatId r) m) bId).isSome := by
        rw [hm', foldl_mapSet_isSome]
        exact Or.inr ⟨r, hrmem, hb⟩
      obtain ⟨v, hv⟩ := Option.isSome_iff_exists.mp hsome
      have hkvm := mapGet_mem hv
      have hkvm' := hkvm
      rw [hm'] at hkvm'
      rcases foldl_mapSet_mem _ _ _ hkvm' with h0 | ⟨r', _, heq⟩
      · cases h0
      · have hvb : v.boatId = bId := by
          have h1 : bId = r'.boatId := congrArg Prod.fst heq
          have h2 : v = r' := congrArg Prod.snd heq
          rw [h2, ← h1]
        exact ⟨W4.toLive v, List.mem_map.mpr ⟨(bId, v), hkvm, rfl⟩, hvb⟩
    rcases List.mem_cons.mp hfr with hfr0 | hfrs
    · subst hfr0
      constructor
      · intro bId
        constructor
        · rintro ⟨e, he, hbe⟩
          obtain ⟨r, hrmem, hbr, hrt, _⟩ := hsound e he
          exact ⟨r, hrmem, by rw [hbr, hbe], hrt⟩
        · exact hcomp bId
      · exact hsound
    · have ihx := ih (consumed ++ rem.takeWhile fun r => decide (r.t ≤ t))
        (rem.dropWhile fun r => decide (r.t ≤ t)) _
        (hsort.sublist (List.dropWhile_sublist _))
        (List.pairwise_cons.mp htimes).2 hm'
        (fun t0 ht0 c hc =>
          le_trans (hcle c hc) (List.rel_of_pairwise_cons htimes ht0))
        fr hfrs
      rw [hsplit] at ihx
      exact ihx

lemma frameTimes_pairwise (tFrom tTo step : ℚ) :
    (W3.frameTimes tFrom tTo step).Pairwise (· ≤ ·) := by
  unfold W3.frameTimes
  split
  · exact List.Pairwise.nil
  · rename_i h
    have hstep : 0 < step := not_le.mp h
    refine List.Pairwise.map _ ?_ (List.pairwise_lt_range _)
    intro i j hij
    have hc : (i : ℚ) ≤ (j : ℚ) := by exact_mod_cast le_of_lt hij
    nlinarith

/-- C3 (counterexample): in the `W3` smoothed replay, a boat whose only
point is at `t = 5000` already appears in the frame at `t = 0` — carrying
the first point's position as nearest-point fallback — so it does
contribute entries to frames earlier than its earliest point. -/
theorem C3_counterexample :
    (W3.replayFrames W3.latePt "R1" 0 5000 1)[0]? =
      some ⟨0, [⟨"B1", none, 7, 8, none, none, 0⟩]⟩ := by
  with_unfolding_all decide

/-- C3 (amended): in the `W4` replay (latest-known-point sampling), a boat
appears in a frame iff it has a selected TrackPoint at or before the frame
time — so a boat whose earliest point in the window is at `p` contributes
no entry to frames earlier than `p` and appears from the first frame
`≥ p` on — and every frame entry is a stored point's values copied
verbatim (no interpolation).  In the `W3` smoothed replay, by contrast,
such a boat appears in every frame, frames before `p` using the first
point's position (nearest-point fallback, not interpolation). -/
theorem C3_window_entry (log : List W3.TrackPoint) (raceId : String)
    (tFrom tTo hz : ℚ) (fr : W3.Frame)
    (hfr : fr ∈ W4.replayFrames log raceId tFrom tTo hz) :
    (∀ bId, (∃ e ∈ fr.boats, e.boatId = bId) ↔
      ∃ r ∈ W4.selectRows log raceId tFrom (W4.effectiveTo tFrom tTo),
        r.boatId = bId ∧ r.t ≤ fr.t) ∧
    (∀ e ∈ fr.boats,
      ∃ r ∈ W4.selectRows log raceId tFrom (W4.effectiveTo tFrom tTo),
        r.boatId = e.boatId ∧ r.t ≤ fr.t ∧ e = W4.toLive r) := by
  have hs : (W4.selectRows log raceId tFrom
      (W4.effectiveTo tFrom tTo)).Pairwise (fun a b => a.t ≤ b.t) :=
    List.sorted_insertionSort W4.rowLeT _
  have ht : (W3.frameTimes tFrom (W4.effectiveTo tFrom tTo)
      ((W4.stepMs hz : ℤ) : ℚ)).Pairwise (· ≤ ·) :=
    frameTimes_pairwise _ _ _
  have hmain := goFrames_spec _ []
    (W4.selectRows log raceId tFrom (W4.effectiveTo tFrom tTo)) [] hs ht rfl
    (fun _ _ c hc => absurd hc (List.not_mem_nil c)) fr hfr
  simpa using hmain

/-- Witness for C3 (amended): in the concrete one-point scenario the first
frame (at `t = 0`, before the boat's only point at `t = 5000`) is empty. -/
theorem C3_window_entry_witness :
    (∀ bId, (∃ e ∈ (⟨0, []⟩ : W3.Frame).boats, e.boatId = bId) ↔
      ∃ r ∈ W4.selectRows W3.latePt "R1" 0 (W4.effectiveTo 0 5000),
        r.boatId = bId ∧ r.t ≤ (⟨0, []⟩ : W3.Frame).t) ∧
    (∀ e ∈ (⟨0, []⟩ : W3.Frame).boats,
      ∃ r ∈ W4.selectRows W3.latePt "R1" 0 (W4.effectiveTo 0 5000),
        r.boatId = e.boatId ∧ r.t ≤ (⟨0, []⟩ : W3.Frame).t ∧
          e = W4.toLive r) :=
  C3_window_entry W3.latePt "R1" 0 5000 1 ⟨0, []⟩
    (by with_unfolding_all decide)

end FinnTrack
